import Mathlib

/-!
Verification of the OpenRouter proxy's key manager, retry loop, model
filter and free-only models post-filter.

The Python sources are embedded shallowly:

* `KeyManager` (src/services/key_manager.py, identical copy in
  key_management_service.py) becomes a pure state type `KMState` with
  `get_next_key` and `disable_key` as explicit state-passing functions.
  Wall-clock instants (`datetime.now()`, hints in milliseconds since the
  epoch) are modelled uniformly as integer milliseconds, so the
  `timedelta(seconds = cooldown_seconds)` contribution is
  `cooldown_seconds * 1000`.
* Python dicts become association lists (`getAssoc`/`setAssoc`/first
  occurrence semantics); dict values `min` becomes `minVal`.
* `random.choice` over the available set and `next(iter(available_keys))`
  (an arbitrary element of a hash set) are resolved by an explicit oracle
  index `pick`, so theorems quantify over every possible choice.
* The `ProxyChatHandler` retry loop (src/features/proxy_chat/handler.py)
  becomes a fuel-based recursion over an oracle
  `upstream : Nat → String → UpstreamResult` giving the outcome of the
  attempt with a given key; the recursion also returns the list of keys
  acquired and the final key-manager state so that claims about key
  consumption and penalties are directly statable.
* `remove_paid_models` (routes.py) is embedded over an abstract JSON
  codec (`loads`/`dumps`) together with a faithful `Json` value type;
  Python exceptions surface as `Except Unit`.
-/

namespace ORProxy

/-- Python `dict` lookup (`d.get(k)` / `k in d`), first-occurrence semantics. -/
def getAssoc {α : Type} : List (String × α) → String → Option α
  | [], _ => none
  | (k', v) :: rest, k => if k' = k then some v else getAssoc rest k

/-- Python `dict` assignment `d[k] = v`: update in place when the key is
present, append otherwise (dicts preserve insertion order). -/
def setAssoc {α : Type} : List (String × α) → String → α → List (String × α)
  | [], k, v => [(k, v)]
  | (k', v') :: rest, k, v =>
    if k' = k then (k, v) :: rest else (k', v') :: setAssoc rest k v

/-- `min(d.values())` over a dict, `none` when empty (Python `min([])`
raises `ValueError`). -/
def minVal (m : List (String × Int)) : Option Int :=
  (m.map Prod.snd).min?

/-- The state of `KeyManager.__init__` (key_manager.py lines 18-27):
the ordered key pool, the default cooldown (seconds), the round-robin
cursor, the cooldown map, the strategy string, the `"same" in opts`
flag and the last selected key. -/
structure KMState where
  keys : List String
  cooldown_seconds : Int
  current_index : Nat
  disabled_until : List (String × Int)
  strategy : String
  use_last_key : Bool
  last_key : Option String
  deriving Repr, DecidableEq

/-- Detail string of the 503 raised by `get_next_key` when no key is
available (key_manager.py lines 63-66). -/
def allCoolingDetail : String :=
  "All API keys are currently disabled due to rate limits. Please try again later."

/-- Failure modes of `get_next_key`: the `HTTPException(503, ...)` when
every key is cooling (carrying the `wait_seconds` value that the code
computes and logs, in milliseconds), the `ValueError` from `min([])`
when the pool is empty, the `NameError` when the round-robin scan fails
(unreachable), and the `RuntimeError` for an unknown strategy. -/
inductive KMError where
  | allKeysCooling (waitMsLogged : Int) (status : Nat) (detail : String)
  | emptyMin
  | unboundSelected
  | unknownStrategy (s : String)
  deriving Repr, DecidableEq

/-- A key is available iff it has no `disabled_until` entry or
`now_ >= disabled_until[key]` (key_manager.py lines 43-49). -/
def isAvailable (m : List (String × Int)) (now : Int) (k : String) : Bool :=
  match getAssoc m k with
  | none => true
  | some t => decide (t ≤ now)

/-- The `available_keys` collected by the first loop of `get_next_key`,
in pool order. -/
def availableKeys (st : KMState) (now : Int) : List String :=
  st.keys.filter (isAvailable st.disabled_until now)

/-- The `expired_keys` collected by the first loop of `get_next_key`:
pool keys whose `disabled_until` entry has passed. -/
def expiredKeys (st : KMState) (now : Int) : List String :=
  st.keys.filter (fun k =>
    match getAssoc st.disabled_until k with
    | none => false
    | some t => decide (t ≤ now))

/-- The deletion loop `for key in expired_keys: del self.disabled_until[key]`
(key_manager.py lines 51-54). -/
def sweep (m : List (String × Int)) (expired : List String) :
    List (String × Int) :=
  m.filter (fun p => !(expired.contains p.1))

/-- `next(iter(available_keys))` / `random.choice(list(available_keys))`:
some element of the available set, chosen by the oracle `pick`. -/
def pickFrom (avail : List String) (pick : Nat) : Option String :=
  avail[pick % avail.length]?

/-- The round-robin scan (key_manager.py lines 71-76): probe at most
`fuel` positions starting at `idx`, advancing the cursor modulo the pool
size after each probe, and return the first probed key that is
available together with the cursor value ( = one past the selected
position). -/
def rrScan (keys avail : List String) : Nat → Nat → Option (String × Nat)
  | _, 0 => none
  | idx, fuel + 1 =>
    match keys[idx]? with
    | none => none
    | some k =>
      let idx' := (idx + 1) % keys.length
      if avail.contains k then some (k, idx') else rrScan keys avail idx' fuel

/-- The selection block of `get_next_key` (key_manager.py lines 68-82),
given the available set: prefer the last key when `use_last_key` holds
and it is available, otherwise follow the strategy.  Returns the
selected key and the new cursor value (the cursor moves only in the
round-robin branch, to one past the selected position). -/
def selectKey (st : KMState) (avail : List String) (pick : Nat) :
    Except KMError (String × Nat) :=
  if st.use_last_key &&
      (match st.last_key with
       | some lk => avail.contains lk
       | none => false) then
    match st.last_key with
    | some lk => .ok (lk, st.current_index)
    | none => .error .unboundSelected
  else if st.strategy = "round-robin" then
    match rrScan st.keys avail st.current_index st.keys.length with
    | some (k, idx') => .ok (k, idx')
    | none => .error .unboundSelected
  else if st.strategy = "first" then
    match pickFrom avail pick with
    | some k => .ok (k, st.current_index)
    | none => .error .unboundSelected
  else if st.strategy = "random" then
    match pickFrom avail pick with
    | some k => .ok (k, st.current_index)
    | none => .error .unboundSelected
  else .error (.unknownStrategy st.strategy)

/-- `KeyManager.get_next_key` (key_manager.py lines 37-85): sweep expired
cooldowns, fail with a 503 when no key is available, otherwise select a
key with `selectKey`, record it as `last_key` and return it with the
updated state.  `pick` resolves the set-iteration order / random choice
of the `first` and `random` strategies. -/
def get_next_key (st : KMState) (now : Int) (pick : Nat) :
    Except KMError (String × KMState) :=
  let avail := availableKeys st now
  let m' := sweep st.disabled_until (expiredKeys st now)
  if avail.isEmpty then
    match minVal m' with
    | none => .error .emptyMin
    | some soonest => .error (.allKeysCooling (soonest - now) 503 allCoolingDetail)
  else
    match selectKey st avail pick with
    | .ok (k, idx') =>
      .ok (k, { st with disabled_until := m', current_index := idx',
                        last_key := some k })
    | .error e => .error e

/-- Smallest millisecond timestamp accepted by
`datetime.fromtimestamp(ms / 1000)` (year 1). -/
def minTsMs : Int := -62135596800000

/-- Largest millisecond timestamp accepted by
`datetime.fromtimestamp(ms / 1000)` (year 9999). -/
def maxTsMs : Int := 253402300799999

/-- `datetime.fromtimestamp(reset_time_ms / 1000)` (key_manager.py line
101): succeeds inside the representable datetime range, raises
(`OverflowError`/`OSError`/`ValueError`) outside it. -/
def parseResetMs (ms : Int) : Option Int :=
  if minTsMs ≤ ms ∧ ms ≤ maxTsMs then some ms else none

/-- `KeyManager.disable_key` (key_manager.py lines 87-121).  Note that
the Python guard `if reset_time_ms:` is falsy both for `None` and for
`0`, and that any parse failure or past-dated hint falls back to
`now + cooldown_seconds`. -/
def disable_key (st : KMState) (now : Int) (key : String)
    (reset_time_ms : Option Int) : KMState :=
  let default_until := now + st.cooldown_seconds * 1000
  let du : Int :=
    match reset_time_ms with
    | some ms =>
      if ms ≠ 0 then
        match parseResetMs ms with
        | some t => if now < t then t else default_until
        | none => default_until
      else default_until
    | none => default_until
  { st with disabled_until := setAssoc st.disabled_until key du }

/-- `update_metrics`'s count of active pool keys (key_manager.py line 32). -/
def activeCount (st : KMState) (now : Int) : Nat :=
  (st.keys.filter (isAvailable st.disabled_until now)).length

/-- `update_metrics`'s count of cooling pool keys (key_manager.py line 33). -/
def cooldownCount (st : KMState) (now : Int) : Nat :=
  (st.keys.filter (fun k => !(isAvailable st.disabled_until now k))).length

/-- Modelled from the spec: `constants.RATE_LIMIT_ERROR_CODE`
(constants.py is not in the sources; the spec fixes the rate-limit
status to HTTP 429 throughout). -/
def RATE_LIMIT_ERROR_CODE : Nat := 429

/-- Outcome of one upstream attempt with a given key, as classified by
the `except` arms of the handler: a successful response (its byte chunks
for the streaming path, their concatenation being the non-streaming
body), an `httpx.HTTPStatusError` with the upstream status and body
text, an `httpx.RequestError` before any byte was produced, or — on the
streaming path — a transport failure after `chunks` were already
yielded. -/
inductive UpstreamResult where
  | ok (chunks : List String)
  | httpError (status : Nat) (body : String)
  | transportError (msg : String)
  | okThenErr (chunks : List String) (msg : String)
  deriving Repr, DecidableEq

/-- What the non-streaming client receives from the handler: a completed
body or an `HTTPException` with a status and detail. -/
inductive HandleResult where
  | success (body : String)
  | httpErr (status : Nat) (detail : String)
  deriving Repr, DecidableEq

/-- `max_retries` of both retry loops (handler.py lines 26 and 90). -/
def MAX_RETRIES : Nat := 10

/-- The non-streaming retry loop of `ProxyChatHandler.handle`
(handler.py lines 90-139), with `fuel` the remaining iterations,
`attempt` the current iteration index, and `lastError` the status/body
of the last `httpx.HTTPStatusError` (only 429s reach the next
iteration).  `upstream a k` is the outcome of attempt `a` performed with
key `k`; `now`/`pick` feed the key manager per attempt.  Returns the
client-visible result, the list of keys acquired, and the final
key-manager state.  On attempt outcomes:

* key acquisition failure → `HTTPException(503, ...)`;
* success → the response is returned;
* HTTP 429 → `disable_key(api_key)` — with NO reset hint — and continue;
* any other HTTP error → `HTTPException(status, body)`;
* transport error → `HTTPException(500, ...)`;
* fuel exhausted → the last 429's status/body if any, else a 503. -/
def handleNonStream (upstream : Nat → String → UpstreamResult)
    (now : Nat → Int) (pick : Nat → Nat) :
    Nat → Nat → Option (Nat × String) → KMState →
    HandleResult × List String × KMState
  | _, 0, lastError, st =>
    (match lastError with
     | some (s, b) => .httpErr s b
     | none => .httpErr 503 "All retry attempts failed to get a successful response.",
     [], st)
  | attempt, fuel + 1, lastError, st =>
    match get_next_key st (now attempt) (pick attempt) with
    | .error _ => (.httpErr 503 "All API keys are currently unavailable.", [], st)
    | .ok (key, st') =>
      match upstream attempt key with
      | .ok chunks => (.success (String.join chunks), [key], st')
      | .httpError s body =>
        if s = RATE_LIMIT_ERROR_CODE then
          let st'' := disable_key st' (now attempt) key none
          let r := handleNonStream upstream now pick (attempt + 1) fuel
                     (some (s, body)) st''
          (r.1, key :: r.2.1, r.2.2)
        else (.httpErr s body, [key], st')
      | .transportError msg =>
        (.httpErr 500 ("Request to OpenRouter API failed: " ++ msg), [key], st')
      | .okThenErr _ msg =>
        (.httpErr 500 ("Request to OpenRouter API failed: " ++ msg), [key], st')

/-- `ProxyChatHandler.handle` non-streaming entry point: ten attempts,
starting with no recorded error. -/
def runHandleNonStream (upstream : Nat → String → UpstreamResult)
    (now : Nat → Int) (pick : Nat → Nat) (st : KMState) :
    HandleResult × List String × KMState :=
  handleNonStream upstream now pick 0 MAX_RETRIES none st

/-- The streaming retry loop `ProxyChatHandler._stream_with_retries`
(handler.py lines 21-77).  The generator yields byte chunks only; every
failure path (`get_next_key` failure, non-429 HTTP error, transport
error, fuel exhausted) just ends the generator, so the value is the
sequence of chunks the client receives, plus the keys acquired and the
final key-manager state.  On a mid-stream transport error
(`okThenErr`) the chunks already yielded reach the client and the loop
breaks. -/
def streamWithRetries (upstream : Nat → String → UpstreamResult)
    (now : Nat → Int) (pick : Nat → Nat) :
    Nat → Nat → KMState → List String × List String × KMState
  | _, 0, st => ([], [], st)
  | attempt, fuel + 1, st =>
    match get_next_key st (now attempt) (pick attempt) with
    | .error _ => ([], [], st)
    | .ok (key, st') =>
      match upstream attempt key with
      | .ok chunks => (chunks, [key], st')
      | .httpError s _ =>
        if s = RATE_LIMIT_ERROR_CODE then
          let st'' := disable_key st' (now attempt) key none
          let r := streamWithRetries upstream now pick (attempt + 1) fuel st''
          (r.1, key :: r.2.1, r.2.2)
        else ([], [key], st')
      | .transportError _ => ([], [key], st')
      | .okThenErr chunks _ => (chunks, [key], st')

/-- `ProxyChatRequest` fields the handler path inspects: the `model`
string and the `stream` flag (command.py lines 4-15). -/
structure ChatRequest where
  model : String
  stream : Bool
  deriving Repr, DecidableEq

/-- The chat-completion path from the endpoint through
`ProxyChatHandler.handle` for a non-streaming request, wired with the
configuration's `free_only` flag and the model-filter cache's free set
as explicit arguments.  The source handler receives only the request
(endpoints.py line 15, handler.py line 79) and consults neither
`free_only` nor the model filter, which is what the right-hand side
records. -/
def engineHandleNonStream (_free_only : Bool) (_free_model_ids : List String)
    (_req : ChatRequest) (upstream : Nat → String → UpstreamResult)
    (now : Nat → Int) (pick : Nat → Nat) (st : KMState) :
    HandleResult × List String × KMState :=
  runHandleNonStream upstream now pick st

/-- State of `ModelFilterService`
(src/features/model_filter/service.py lines 11-16): the cached free
model ids, the last fetch instant and the TTL. -/
structure MFCState where
  free_model_ids : List String
  last_fetch_time : Int
  cache_ttl : Int
  deriving Repr, DecidableEq

/-- `ModelFilterService._refresh_cache` (service.py lines 18-36), with
the outcome of `GET /models` as an oracle: on success the cache becomes
the fetched ids whose string ends in `:free`; on an HTTP error only
`last_fetch_time` is advanced.  `fetch` carries the `id` field of each
entry of the response's `data` list (missing ids default to `""`). -/
def refreshCache (st : MFCState) (nowS : Int)
    (fetch : Except Unit (List String)) : MFCState :=
  match fetch with
  | .ok ids =>
    { st with free_model_ids := ids.filter (fun i => i.endsWith ":free"),
              last_fetch_time := nowS }
  | .error _ => { st with last_fetch_time := nowS }

/-- `ModelFilterService.is_model_allowed` (service.py lines 38-48):
refresh when the cached set is empty or stale, then test membership of
`model_id` in the free set. -/
def is_model_allowed (st : MFCState) (nowS : Int)
    (fetch : Except Unit (List String)) (model_id : String) :
    Bool × MFCState :=
  let stale := decide (st.cache_ttl < nowS - st.last_fetch_time)
  let st' := if st.free_model_ids.isEmpty || stale then refreshCache st nowS fetch else st
  (st'.free_model_ids.contains model_id, st')

/-- JSON values as produced by `json.loads`: null, booleans, numbers
(integral numbers suffice for every claim; no inspected field is
fractional), strings, arrays and objects in insertion order. -/
inductive Json where
  | null
  | bool (b : Bool)
  | num (n : Int)
  | str (s : String)
  | arr (xs : List Json)
  | obj (fields : List (String × Json))

/-- Python `v == "0"` for a JSON value `v`: true exactly on the string
`"0"` (comparison of a non-string with a string is `False`). -/
def isZeroStr : Json → Bool
  | .str s => s = "0"
  | _ => false

/-- `PRICES_TO_CHECK` (routes.py line 65). -/
def PRICES_TO_CHECK : List String :=
  ["prompt", "completion", "request", "image", "web_search", "internal_reasoning"]

/-- The filter condition of `remove_paid_models` (routes.py line 75):
`all(model.get("pricing", {}).get(k, "1") == "0" for k in PRICES_TO_CHECK)`.
A model that is not a dict, or whose `pricing` value is present but not
a dict, makes the Python expression raise `AttributeError`
(`.get` on a non-dict), modelled as `.error ()`. -/
def isFreeModelE (m : Json) : Except Unit Bool :=
  match m with
  | .obj fields =>
    match getAssoc fields "pricing" with
    | none =>
      .ok (PRICES_TO_CHECK.all fun k =>
        isZeroStr ((getAssoc ([] : List (String × Json)) k).getD (.str "1")))
    | some (.obj p) =>
      .ok (PRICES_TO_CHECK.all fun k =>
        isZeroStr ((getAssoc p k).getD (.str "1")))
    | some _ => .error ()
  | _ => .error ()

/-- The list comprehension of `remove_paid_models` (routes.py lines
73-76): keep the models passing `isFreeModelE`, aborting on the first
entry whose condition raises. -/
def filterFreeE : List Json → Except Unit (List Json)
  | [] => .ok []
  | m :: rest =>
    match isFreeModelE m with
    | .error e => .error e
    | .ok b =>
      match filterFreeE rest with
      | .error e => .error e
      | .ok tail => .ok (if b then m :: tail else tail)

/-- `remove_paid_models` (routes.py lines 63-81), over an abstract JSON
codec: `loads` is `json.loads` (returning `none` on
`JSONDecodeError`/`ValueError`, which the function catches and passes
the body through) and `dumps` is
`json.dumps(..., ensure_ascii=False).encode("utf-8")`.  A body that
parses to a non-object makes `data.get("data")` raise `AttributeError`,
modelled as `.error ()`; otherwise, when the `data` field is a list, the
filtered list replaces it if non-empty and the result is re-serialized,
and in every other case the body is returned unchanged. -/
def remove_paid_models {β : Type} (loads : β → Option Json) (dumps : Json → β)
    (body : β) : Except Unit β :=
  match loads body with
  | none => .ok body
  | some (.obj fields) =>
    match getAssoc fields "data" with
    | some (.arr models) =>
      match filterFreeE models with
      | .error e => .error e
      | .ok filtered =>
        if filtered.isEmpty then .ok body
        else .ok (dumps (.obj (setAssoc fields "data" (.arr filtered))))
    | _ => .ok body
  | some _ => .error ()

/-- Successive `acquire()` results: run `get_next_key` `n` times from
`st` at a fixed instant with oracle 0, collecting the returned keys and
threading the state (stops on the first failure). -/
def acquireKeys (st : KMState) (now : Int) : Nat → List String
  | 0 => []
  | n + 1 =>
    match get_next_key st now 0 with
    | .ok (k, st') => k :: acquireKeys st' now n
    | .error _ => []

/-- Trace of `n` successive `acquire()` calls with per-call instants and
oracles: `some k` when the call returns key `k`, `none` when it fails
with an exception (in which case the state is unchanged: when no key is
available the sweep removes nothing). -/
def acquireTrace (nows : Nat → Int) (picks : Nat → Nat) :
    Nat → Nat → KMState → List (Option String)
  | _, 0, _ => []
  | i, n + 1, st =>
    match get_next_key st (nows i) (picks i) with
    | .ok (k, st') => some k :: acquireTrace nows picks (i + 1) n st'
    | .error _ => none :: acquireTrace nows picks (i + 1) n st

/-- Two key-manager states that agree on everything the selection logic
reads about the pool: all fields except the cooldown map, and the
cooldown entries of every pool key. -/
def PoolEquiv (s1 s2 : KMState) : Prop :=
  s1.keys = s2.keys ∧
  s1.cooldown_seconds = s2.cooldown_seconds ∧
  s1.current_index = s2.current_index ∧
  s1.strategy = s2.strategy ∧
  s1.use_last_key = s2.use_last_key ∧
  s1.last_key = s2.last_key ∧
  ∀ p ∈ s1.keys, getAssoc s1.disabled_until p = getAssoc s2.disabled_until p

/-- The free-entry condition in the words of the specification: the
entry is an object whose `pricing` object maps each of `prompt`,
`completion`, `request`, `image`, `web_search`, `internal_reasoning` to
the string `"0"`; a missing pricing field counts as `"1"` and excludes
the entry. -/
def claimFree (m : Json) : Bool :=
  match m with
  | .obj fields =>
    match getAssoc fields "pricing" with
    | some (.obj p) =>
      PRICES_TO_CHECK.all fun k => isZeroStr ((getAssoc p k).getD (.str "1"))
    | _ => false
  | _ => false

/-- Shape discriminator used to state when `remove_paid_models` raises. -/
def isObj : Json → Bool
  | .obj _ => true
  | _ => false

/-! ### Association-list lemmas -/

theorem getAssoc_setAssoc_self {α : Type} (m : List (String × α)) (k : String) (v : α) :
    getAssoc (setAssoc m k v) k = some v := by
  induction m with
  | nil => simp [getAssoc, setAssoc]
  | cons p rest ih =>
    obtain ⟨k', v'⟩ := p
    by_cases hk : k' = k
    · simp [getAssoc, setAssoc, hk]
    · simp [getAssoc, setAssoc, hk, ih]

theorem getAssoc_setAssoc_ne {α : Type} (m : List (String × α)) (k q : String) (v : α)
    (hne : q ≠ k) : getAssoc (setAssoc m k v) q = getAssoc m q := by
  induction m with
  | nil => simp [getAssoc, setAssoc, Ne.symm hne]
  | cons p rest ih =>
    obtain ⟨k', v'⟩ := p
    by_cases hk : k' = k
    · subst hk
      simp [getAssoc, setAssoc, Ne.symm hne]
    · simp [getAssoc, setAssoc, hk, ih]

theorem setAssoc_setAssoc_self {α : Type} (m : List (String × α)) (k : String) (v : α) :
    setAssoc (setAssoc m k v) k v = setAssoc m k v := by
  induction m with
  | nil => simp [setAssoc]
  | cons p rest ih =>
    obtain ⟨k', v'⟩ := p
    by_cases hk : k' = k
    · simp [setAssoc, hk]
    · simp [setAssoc, hk, ih]

theorem getAssoc_sweep (m : List (String × Int)) (e : List String) (p : String) :
    getAssoc (sweep m e) p =
      if e.contains p then none else getAssoc m p := by
  induction m with
  | nil => simp [sweep, getAssoc]
  | cons q rest ih =>
    obtain ⟨k', v'⟩ := q
    by_cases hc : e.contains k'
    · have hm : k' ∈ e := by simpa using hc
      have hs : sweep ((k', v') :: rest) e = sweep rest e := by
        simp [sweep, List.filter_cons, hm]
      rw [hs, ih]
      by_cases hp : k' = p
      · subst hp
        simp [hm]
      · simp [getAssoc, hp]
    · have hm : k' ∉ e := by simpa using hc
      have hs : sweep ((k', v') :: rest) e = (k', v') :: sweep rest e := by
        simp [sweep, List.filter_cons, hm]
      rw [hs]
      by_cases hp : k' = p
      · subst hp
        simp [getAssoc, hm]
      · simp [getAssoc, hp, ih]

/-! ### Round-robin scan lemmas -/

theorem rrScan_contains (keys avail : List String) :
    ∀ fuel idx k j, rrScan keys avail idx fuel = some (k, j) →
      avail.contains k = true := by
  intro fuel
  induction fuel with
  | zero => intro idx k j h; simp [rrScan] at h
  | succ n ih =>
    intro idx k j h
    unfold rrScan at h
    cases hg : keys[idx]? with
    | none => rw [hg] at h; simp at h
    | some k0 =>
      rw [hg] at h
      simp only at h
      by_cases hc : avail.contains k0
      · rw [if_pos hc] at h
        cases h
        exact hc
      · rw [if_neg hc] at h
        exact ih _ k j h

theorem rrScan_sound (keys avail : List String) :
    ∀ fuel idx k j, idx < keys.length →
      rrScan keys avail idx fuel = some (k, j) →
      ∃ d, d < fuel ∧
        keys[(idx + d) % keys.length]? = some k ∧
        avail.contains k = true ∧
        j = (idx + d + 1) % keys.length ∧
        ∀ e, e < d → ∃ ke, keys[(idx + e) % keys.length]? = some ke ∧
          avail.contains ke = false := by
  intro fuel
  induction fuel with
  | zero => intro idx k j _ h; simp [rrScan] at h
  | succ n ih =>
    intro idx k j hidx h
    have hN : 0 < keys.length := by omega
    unfold rrScan at h
    cases hg : keys[idx]? with
    | none => rw [hg] at h; simp at h
    | some k0 =>
      rw [hg] at h
      simp only at h
      by_cases hc : avail.contains k0
      · rw [if_pos hc] at h
        cases h
        refine ⟨0, Nat.succ_pos n, ?_, hc, ?_, ?_⟩
        · simpa [Nat.mod_eq_of_lt hidx] using hg
        · simp
        · intro e he; omega
      · rw [if_neg hc] at h
        have hidx' : (idx + 1) % keys.length < keys.length :=
          Nat.mod_lt _ hN
        obtain ⟨d, hd, hk, hck, hj, hprev⟩ := ih _ k j hidx' h
        refine ⟨d + 1, Nat.succ_lt_succ hd, ?_, hck, ?_, ?_⟩
        · have : (idx + (d + 1)) % keys.length = ((idx + 1) % keys.length + d) % keys.length := by
            rw [Nat.mod_add_mod]
            ring_nf
          rw [this]
          exact hk
        · rw [hj]
          have h1 : (idx + 1) % keys.length + d + 1 = (idx + 1) % keys.length + (d + 1) := by
            omega
          rw [h1, Nat.mod_add_mod]
          congr 1
          omega
        · intro e he
          cases e with
          | zero =>
            refine ⟨k0, ?_, by simpa using hc⟩
            simpa [Nat.mod_eq_of_lt hidx] using hg
          | succ e' =>
            have he' : e' < d := by omega
            obtain ⟨ke, hke, hcke⟩ := hprev e' he'
            refine ⟨ke, ?_, hcke⟩
            have : (idx + (e' + 1)) % keys.length = ((idx + 1) % keys.length + e') % keys.length := by
              rw [Nat.mod_add_mod]
              ring_nf
            rw [this]
            exact hke

/-! ### Selection and `get_next_key` inversion lemmas -/

theorem pickFrom_contains (avail : List String) (pick : Nat) (k : String)
    (h : pickFrom avail pick = some k) : avail.contains k = true := by
  unfold pickFrom at h
  have := List.getElem?_mem h
  simpa using this

theorem selectKey_ok_contains (st : KMState) (avail : List String) (pick : Nat)
    (k : String) (idx' : Nat) (h : selectKey st avail pick = .ok (k, idx')) :
    avail.contains k = true := by
  unfold selectKey at h
  by_cases h1 : (st.use_last_key &&
      (match st.last_key with
       | some lk => avail.contains lk
       | none => false)) = true
  · rw [if_pos h1] at h
    cases hl : st.last_key with
    | none => rw [hl] at h h1; simp at h1
    | some lk =>
      rw [hl] at h h1
      cases h
      simpa using (Bool.and_elim_right h1)
  · rw [if_neg h1] at h
    by_cases h2 : st.strategy = "round-robin"
    · rw [if_pos h2] at h
      cases hs : rrScan st.keys avail st.current_index st.keys.length with
      | none => rw [hs] at h; cases h
      | some p =>
        obtain ⟨k0, j0⟩ := p
        rw [hs] at h
        cases h
        exact rrScan_contains st.keys avail _ _ _ _ hs
    · rw [if_neg h2] at h
      by_cases h3 : st.strategy = "first"
      · rw [if_pos h3] at h
        cases hp : pickFrom avail pick with
        | none => rw [hp] at h; cases h
        | some k0 =>
          rw [hp] at h
          cases h
          exact pickFrom_contains avail pick _ hp
      · rw [if_neg h3] at h
        by_cases h4 : st.strategy = "random"
        · rw [if_pos h4] at h
          cases hp : pickFrom avail pick with
          | none => rw [hp] at h; cases h
          | some k0 =>
            rw [hp] at h
            cases h
            exact pickFrom_contains avail pick _ hp
        · rw [if_neg h4] at h
          cases h

theorem get_next_key_ok_inv (st : KMState) (now : Int) (pick : Nat)
    (k : String) (st' : KMState)
    (h : get_next_key st now pick = .ok (k, st')) :
    (availableKeys st now).contains k = true ∧
    st'.disabled_until = sweep st.disabled_until (expiredKeys st now) ∧
    st'.keys = st.keys ∧
    st'.cooldown_seconds = st.cooldown_seconds ∧
    st'.strategy = st.strategy ∧
    st'.use_last_key = st.use_last_key ∧
    st'.last_key = some k ∧
    ∃ idx', selectKey st (availableKeys st now) pick = .ok (k, idx') ∧
      st'.current_index = idx' := by
  unfold get_next_key at h
  by_cases he : (availableKeys st now).isEmpty
  · rw [if_pos he] at h
    cases hm : minVal (sweep st.disabled_until (expiredKeys st now)) with
    | none => rw [hm] at h; cases h
    | some s => rw [hm] at h; cases h
  · rw [if_neg he] at h
    cases hs : selectKey st (availableKeys st now) pick with
    | error e => rw [hs] at h; cases h
    | ok p =>
      obtain ⟨k0, idx'⟩ := p
      rw [hs] at h
      cases h
      refine ⟨selectKey_ok_contains st _ pick _ _ hs, rfl, rfl, rfl, rfl, rfl, rfl,
        idx', rfl, rfl⟩

theorem isAvailable_iff (m : List (String × Int)) (now : Int) (k : String) :
    isAvailable m now k = true ↔
      getAssoc m k = none ∨ ∃ t, getAssoc m k = some t ∧ t ≤ now := by
  cases hg : getAssoc m k <;> simp [isAvailable, hg]

theorem expiredPred_iff (m : List (String × Int)) (now : Int) (p : String) :
    (match getAssoc m p with
     | none => false
     | some t => decide (t ≤ now)) = true ↔
    ∃ t, getAssoc m p = some t ∧ t ≤ now := by
  cases hg : getAssoc m p <;> simp [hg]

theorem contains_availableKeys (st : KMState) (now : Int) (k : String) :
    (availableKeys st now).contains k = true ↔
      k ∈ st.keys ∧ isAvailable st.disabled_until now k = true := by
  simp [availableKeys, List.mem_filter]

theorem contains_expiredKeys (st : KMState) (now : Int) (p : String) :
    (expiredKeys st now).contains p = true ↔
      p ∈ st.keys ∧ ∃ t, getAssoc st.disabled_until p = some t ∧ t ≤ now := by
  rw [show (expiredKeys st now).contains p = true ↔ p ∈ expiredKeys st now by simp]
  rw [expiredKeys, List.mem_filter, expiredPred_iff]

/-- C6: `disable_key(key, reset_time_ms)` sets the key's deadline to exactly
the hinted timestamp when the hint is provided and converts to an absolute
time strictly greater than `now`; when the hint is absent, at or before
`now`, or unparsable, the deadline is `now + cooldown_default`.  In the
scenario of a hint `now + 5 s`, the key is available again at `now + 5 s`
(and still cooling just before), not only after the default cooldown. -/
theorem C6_reset_hint (st : KMState) (now : Int) (key : String)
    (hnow : 0 ≤ now) :
    (∀ ms t, parseResetMs ms = some t → now < t →
      getAssoc (disable_key st now key (some ms)).disabled_until key = some t) ∧
    (getAssoc (disable_key st now key none).disabled_until key
      = some (now + st.cooldown_seconds * 1000)) ∧
    (∀ ms t, parseResetMs ms = some t → t ≤ now →
      getAssoc (disable_key st now key (some ms)).disabled_until key
        = some (now + st.cooldown_seconds * 1000)) ∧
    (∀ ms, parseResetMs ms = none →
      getAssoc (disable_key st now key (some ms)).disabled_until key
        = some (now + st.cooldown_seconds * 1000)) ∧
    (now + 5000 ≤ maxTsMs → 5000 < st.cooldown_seconds * 1000 →
      isAvailable (disable_key st now key (some (now + 5000))).disabled_until
          (now + 5000) key = true ∧
      isAvailable (disable_key st now key (some (now + 5000))).disabled_until
          (now + 4999) key = false ∧
      isAvailable (disable_key st now key none).disabled_until
          (now + 5000) key = false) := by
  refine ⟨?_, ?_, ?_, ?_, ?_⟩
  · intro ms t hp hlt
    have hms : ms ≠ 0 := by
      intro h0
      subst h0
      have ht0 : t = 0 := by
        have := hp
        simp [parseResetMs, minTsMs, maxTsMs] at this
        omega
      omega
    have : (disable_key st now key (some ms)).disabled_until
        = setAssoc st.disabled_until key t := by
      unfold disable_key
      simp [hms, hp, hlt]
    rw [this, getAssoc_setAssoc_self]
  · have : (disable_key st now key none).disabled_until
        = setAssoc st.disabled_until key (now + st.cooldown_seconds * 1000) := by
      unfold disable_key
      simp
    rw [this, getAssoc_setAssoc_self]
  · intro ms t hp hle
    have hnlt : ¬ now < t := by omega
    by_cases hms : ms = 0
    · subst hms
      have : (disable_key st now key (some 0)).disabled_until
          = setAssoc st.disabled_until key (now + st.cooldown_seconds * 1000) := by
        unfold disable_key
        simp
      rw [this, getAssoc_setAssoc_self]
    · have : (disable_key st now key (some ms)).disabled_until
          = setAssoc st.disabled_until key (now + st.cooldown_seconds * 1000) := by
        unfold disable_key
        simp [hms, hp, hnlt]
      rw [this, getAssoc_setAssoc_self]
  · intro ms hp
    by_cases hms : ms = 0
    · subst hms
      have : (disable_key st now key (some 0)).disabled_until
          = setAssoc st.disabled_until key (now + st.cooldown_seconds * 1000) := by
        unfold disable_key
        simp
      rw [this, getAssoc_setAssoc_self]
    · have : (disable_key st now key (some ms)).disabled_until
          = setAssoc st.disabled_until key (now + st.cooldown_seconds * 1000) := by
        unfold disable_key
        simp [hms, hp]
      rw [this, getAssoc_setAssoc_self]
  · intro hmax hcd
    have hms : now + 5000 ≠ 0 := by omega
    have hp : parseResetMs (now + 5000) = some (now + 5000) := by
      have hlo : minTsMs ≤ now + 5000 := by unfold minTsMs; omega
      simp [parseResetMs, hlo, hmax]
    have hlt : now < now + 5000 := by omega
    have h1 : (disable_key st now key (some (now + 5000))).disabled_until
        = setAssoc st.disabled_until key (now + 5000) := by
      unfold disable_key
      simp [hms, hp, hlt]
    have h2 : (disable_key st now key none).disabled_until
        = setAssoc st.disabled_until key (now + st.cooldown_seconds * 1000) := by
      unfold disable_key
      simp
    have hg1 : getAssoc (disable_key st now key (some (now + 5000))).disabled_until key
        = some (now + 5000) := by rw [h1, getAssoc_setAssoc_self]
    have hg2 : getAssoc (disable_key st now key none).disabled_until key
        = some (now + st.cooldown_seconds * 1000) := by rw [h2, getAssoc_setAssoc_self]
    refine ⟨?_, ?_, ?_⟩
    · simp [isAvailable, hg1]
    · simp [isAvailable, hg1]
    · simp [isAvailable, hg2]
      omega

/-- Witness for C6 at a concrete state: hint strictly after now is used
exactly; a past hint and a missing hint both yield `now + cooldown`. -/
theorem C6_witness :
    getAssoc (disable_key ⟨["A"], 14400, 0, [], "round-robin", false, none⟩
        1000 "A" (some 6000)).disabled_until "A" = some 6000 ∧
    getAssoc (disable_key ⟨["A"], 14400, 0, [], "round-robin", false, none⟩
        1000 "A" none).disabled_until "A" = some (1000 + 14400 * 1000) ∧
    getAssoc (disable_key ⟨["A"], 14400, 0, [], "round-robin", false, none⟩
        1000 "A" (some 500)).disabled_until "A" = some (1000 + 14400 * 1000) := by
  have h := C6_reset_hint ⟨["A"], 14400, 0, [], "round-robin", false, none⟩
    1000 "A" (by decide)
  exact ⟨h.1 6000 6000 (by decide) (by decide), h.2.1,
    h.2.2.1 500 500 (by decide) (by decide)⟩

/-- C5 counterexample: the claim also asserts that every `disabled_until`
entry whose deadline has passed is cleared during the `acquire()` call,
for any state of the map.  The sweep loop iterates only over the
configured pool, so an expired entry for a key outside the pool (here
`"X"`, reachable through the `/disable_key` endpoint) survives: with
pool `["A"]`, map `{X ↦ 0}` and `now = 5 ≥ 0`, `acquire()` returns `A`
but the post-state still maps `X` to `0`. -/
theorem C5_counterexample :
    get_next_key ⟨["A"], 10, 0, [("X", 0)], "first", false, none⟩ 5 0
      = .ok ("A", ⟨["A"], 10, 0, [("X", 0)], "first", false, some "A"⟩) ∧
    getAssoc [("X", (0 : Int))] "X" = some 0 ∧ ((0 : Int) ≤ 5) := by
  refine ⟨rfl, rfl, by decide⟩

/-- C5 (amended): every key returned by a successful `acquire()` is
available at the instant observed at the start of the call (no
`disabled_until` entry, or an entry `≤ now`); during the same call the
entries of POOL keys whose deadline has passed are cleared, entries of
pool keys still cooling are kept, and entries of keys outside the pool —
expired or not — are left untouched. -/
theorem C5_acquire_available (st : KMState) (now : Int) (pick : Nat)
    (k : String) (st' : KMState)
    (h : get_next_key st now pick = .ok (k, st')) :
    isAvailable st.disabled_until now k = true ∧
    (∀ p, p ∈ st.keys → ∀ t, getAssoc st.disabled_until p = some t → t ≤ now →
      getAssoc st'.disabled_until p = none) ∧
    (∀ p t, getAssoc st.disabled_until p = some t → now < t →
      getAssoc st'.disabled_until p = some t) ∧
    (∀ q, q ∉ st.keys → getAssoc st'.disabled_until q = getAssoc st.disabled_until q) := by
  obtain ⟨hc, hmap, -, -, -, -, -, -⟩ := get_next_key_ok_inv st now pick k st' h
  have hk := (contains_availableKeys st now k).mp hc
  refine ⟨hk.2, ?_, ?_, ?_⟩
  · intro p hp t ht hle
    rw [hmap, getAssoc_sweep]
    rw [if_pos]
    exact (contains_expiredKeys st now p).mpr ⟨hp, t, ht, hle⟩
  · intro p t ht hlt
    rw [hmap, getAssoc_sweep]
    rw [if_neg]
    · exact ht
    · intro hcon
      obtain ⟨-, t', ht', hle'⟩ := (contains_expiredKeys st now p).mp hcon
      rw [ht] at ht'
      cases ht'
      omega
  · intro q hq
    rw [hmap, getAssoc_sweep]
    rw [if_neg]
    intro hcon
    exact hq ((contains_expiredKeys st now q).mp hcon).1

/-- Witness for C5 (amended) on pool `["A","B"]` with `A` expired, `B`
still cooling and a foreign entry `X`: the call returns the available
pool key `A` (expired entries count as available) and the post-state
drops `A`'s expired entry. -/
theorem C5_witness :
    isAvailable [("A", (3 : Int)), ("B", 100), ("X", 1)] 5 "A" = true ∧
    getAssoc [("B", (100 : Int)), ("X", 1)] "A" = none := by
  have h := C5_acquire_available
    ⟨["A", "B"], 10, 0, [("A", 3), ("B", 100), ("X", 1)], "first", false, none⟩
    5 0 "A"
    ⟨["A", "B"], 10, 0, [("B", 100), ("X", 1)], "first", false, some "A"⟩
    rfl
  exact ⟨h.1, h.2.1 "A" (by decide) 3 (by decide) (by decide)⟩

/-- C7 counterexample: the 503 detail string returned when every key is
cooling is a constant; two all-cooling states whose soonest deadline
differs (wait 9000 ms vs 1000 ms) produce byte-identical response
bodies, so the body cannot include a wait-seconds hint derived from
`soonest − now` (the computed wait is only logged). -/
theorem C7_counterexample :
    get_next_key ⟨["A"], 14400, 0, [("A", 10000)], "round-robin", false, none⟩ 1000 0
      = .error (.allKeysCooling 9000 503 allCoolingDetail) ∧
    get_next_key ⟨["A"], 14400, 0, [("A", 2000)], "round-robin", false, none⟩ 1000 0
      = .error (.allKeysCooling 1000 503 allCoolingDetail) ∧
    ((9000 : Int) ≠ 1000) := by
  refine ⟨rfl, rfl, by decide⟩

/-- C7 (amended): when every key is cooling, `acquire()` fails
immediately with HTTP 503 — it never waits — and the wait value
`soonest disabled_until − now` is computed (and logged) but the response
detail is the fixed message `allCoolingDetail`, which carries no wait
hint.  In the single-key scenario (penalize with default cooldown, then
acquire within one second), the computed wait is within ±1 s of the
default cooldown. -/
theorem C7_all_cooling (st : KMState) (now : Int) (pick : Nat) (soonest : Int)
    (hav : availableKeys st now = [])
    (hmin : minVal st.disabled_until = some soonest) :
    get_next_key st now pick
      = .error (.allKeysCooling (soonest - now) 503 allCoolingDetail) ∧
    (∀ cd t t' pick', (0 : Int) < cd → t ≤ t' → t' < t + cd * 1000 →
      get_next_key (disable_key ⟨["A"], cd, 0, [], "round-robin", false, none⟩
          t "A" none) t' pick'
        = .error (.allKeysCooling (t + cd * 1000 - t') 503 allCoolingDetail) ∧
      (t' - t ≤ 1000 →
        cd * 1000 - 1000 ≤ t + cd * 1000 - t' ∧ t + cd * 1000 - t' ≤ cd * 1000)) := by
  have main : ∀ (s : KMState) (n : Int) (pk : Nat) (so : Int),
      availableKeys s n = [] → minVal s.disabled_until = some so →
      get_next_key s n pk = .error (.allKeysCooling (so - n) 503 allCoolingDetail) := by
    intro s n pk so hav' hmin'
    have hexp : expiredKeys s n = [] := by
      rw [List.eq_nil_iff_forall_not_mem] at hav' ⊢
      intro x hx
      apply hav' x
      rw [expiredKeys, List.mem_filter] at hx
      rw [availableKeys, List.mem_filter]
      refine ⟨hx.1, ?_⟩
      rw [isAvailable_iff]
      right
      exact (expiredPred_iff s.disabled_until n x).mp hx.2
    have hsweep : sweep s.disabled_until (expiredKeys s n) = s.disabled_until := by
      rw [hexp]
      simp [sweep, List.filter_eq_self]
    unfold get_next_key
    rw [hav']
    simp only [List.isEmpty_nil, if_pos]
    rw [hsweep, hmin']
  refine ⟨main st now pick soonest hav hmin, ?_⟩
  intro cd t t' pick' hcd hle hlt
  have hdis : (disable_key ⟨["A"], cd, 0, [], "round-robin", false, none⟩
      t "A" none).disabled_until = [("A", t + cd * 1000)] := by
    unfold disable_key
    simp [setAssoc]
  constructor
  · apply main
    · have hfalse : isAvailable [("A", t + cd * 1000)] t' "A" = false := by
        simp [isAvailable, getAssoc]
        omega
      unfold availableKeys
      rw [hdis]
      show (["A"] : List String).filter (isAvailable [("A", t + cd * 1000)] t') = []
      simp [List.filter_cons, hfalse]
    · rw [hdis]
      simp [minVal]
  · intro hnear
    omega

/-- Witness for C7 at a concrete all-cooling state and a concrete
single-key penalize/acquire pair one second apart. -/
theorem C7_witness :
    get_next_key ⟨["A", "B"], 7, 0, [("A", 40), ("B", 30)], "first", false, none⟩ 20 0
      = .error (.allKeysCooling 10 503 allCoolingDetail) ∧
    get_next_key (disable_key ⟨["A"], 2, 0, [], "round-robin", false, none⟩
        100 "A" none) 1100 0
      = .error (.allKeysCooling 1000 503 allCoolingDetail) := by
  have h1 := C7_all_cooling
    ⟨["A", "B"], 7, 0, [("A", 40), ("B", 30)], "first", false, none⟩ 20 0 30
    (by decide) (by decide)
  have h2 := (C7_all_cooling
    ⟨["A", "B"], 7, 0, [("A", 40), ("B", 30)], "first", false, none⟩ 20 0 30
    (by decide) (by decide)).2 2 100 1100 0 (by decide) (by decide) (by decide)
  exact ⟨h1.1, by simpa using h2.1⟩

/-- C1: with keys `[A, B, C]`, strategy round-robin, `use_last` off and
every key available, four consecutive `acquire()` calls return
`A, B, C, A`; and in general (round-robin, `use_last` off, cursor in
range), a successful `acquire()` returns the first available key at or
after the cursor in cyclic pool order — every key strictly between the
cursor and the selected position is cooling — and leaves the cursor one
position past the selected key. -/
theorem C1_round_robin_rotation :
    acquireKeys ⟨["A", "B", "C"], 14400, 0, [], "round-robin", false, none⟩ 0 4
      = ["A", "B", "C", "A"] ∧
    ∀ st now pick k st',
      st.strategy = "round-robin" → st.use_last_key = false →
      st.current_index < st.keys.length →
      get_next_key st now pick = .ok (k, st') →
      ∃ d, d < st.keys.length ∧
        st.keys[(st.current_index + d) % st.keys.length]? = some k ∧
        isAvailable st.disabled_until now k = true ∧
        st'.current_index = (st.current_index + d + 1) % st.keys.length ∧
        ∀ e, e < d → ∃ ke,
          st.keys[(st.current_index + e) % st.keys.length]? = some ke ∧
          ke ∈ st.keys ∧ isAvailable st.disabled_until now ke = false := by
  constructor
  · rfl
  · intro st now pick k st' hstrat hul hidx h
    obtain ⟨hc, hmap, hkeys, -, -, -, -, idx', hsel, hcur⟩ :=
      get_next_key_ok_inv st now pick k st' h
    unfold selectKey at hsel
    rw [hul] at hsel
    simp only [Bool.false_and, Bool.false_eq_true, if_false, hstrat, if_pos] at hsel
    cases hscan : rrScan st.keys (availableKeys st now) st.current_index
        st.keys.length with
    | none => rw [hscan] at hsel; cases hsel
    | some p =>
      obtain ⟨k0, j0⟩ := p
      rw [hscan] at hsel
      cases hsel
      obtain ⟨d, hd, hk, hck, hj, hprev⟩ :=
        rrScan_sound st.keys (availableKeys st now) st.keys.length
          st.current_index k idx' hidx hscan
      refine ⟨d, hd, hk, ((contains_availableKeys st now k).mp hck).2, ?_, ?_⟩
      · rw [hcur, hj]
      · intro e he
        obtain ⟨ke, hke, hcke⟩ := hprev e he
        have hmem : ke ∈ st.keys := by
          have := List.getElem?_mem hke
          exact this
        refine ⟨ke, hke, hmem, ?_⟩
        by_contra hav
        have hav' : isAvailable st.disabled_until now ke = true := by
          cases hb : isAvailable st.disabled_until now ke
          · exact absurd hb hav
          · rfl
        have := (contains_availableKeys st now ke).mpr ⟨hmem, hav'⟩
        rw [this] at hcke
        cases hcke

/-- Witness for C1 at a concrete state: cursor 1, `B` cooling; the call
returns `C` (skipping `B`) and leaves the cursor at 0. -/
theorem C1_witness :
    ∃ d, d < (3 : Nat) ∧
      (["A", "B", "C"] : List String)[(1 + d) % 3]? = some "C" ∧
      isAvailable [("B", (100 : Int))] 50 "C" = true ∧
      (0 : Nat) = (1 + d + 1) % 3 ∧
      ∀ e, e < d → ∃ ke,
        (["A", "B", "C"] : List String)[(1 + e) % 3]? = some ke ∧
        ke ∈ (["A", "B", "C"] : List String) ∧
        isAvailable [("B", (100 : Int))] 50 ke = false :=
  C1_round_robin_rotation.2
    ⟨["A", "B", "C"], 14400, 1, [("B", 100)], "round-robin", false, none⟩ 50 0 "C"
    ⟨["A", "B", "C"], 14400, 0, [("B", 100)], "round-robin", false, some "C"⟩
    rfl rfl (by decide) rfl

/-- C2 counterexample: on the streaming path a non-429 upstream HTTP
error is not propagated to the client.  With one key and an upstream
that answers 500 with body `boom`, the stream loop stops on that first
attempt (exactly one key acquired) but the client receives an empty
chunk stream: neither the status 500 nor the body `boom` appears in the
response, contradicting the claim that the propagated response carries
the upstream status code and body on both paths. -/
theorem C2_counterexample :
    streamWithRetries (fun _ _ => .httpError 500 "boom") (fun _ => 0) (fun _ => 0)
        0 10 ⟨["A"], 14400, 0, [], "round-robin", false, none⟩
      = ([], ["A"], ⟨["A"], 14400, 0, [], "round-robin", false, some "A"⟩) ∧
    (([] : List String).contains "boom" = false) := by
  exact ⟨rfl, rfl⟩

/-- C2 (amended): in both retry loops an upstream HTTP status ≥ 400
other than 429, and every transport error, stops the loop on that same
attempt — the result is the same for every remaining-fuel budget and
exactly one further key is acquired.  On the non-streaming path the
propagated `HTTPException` carries the upstream status code and body
(transport errors become a 500); on the streaming path the generator
simply ends, yielding no further chunks and propagating neither status
nor body (only chunks already yielded by a mid-stream failure reach the
client). -/
theorem C2_no_retry_non429 (upstream : Nat → String → UpstreamResult)
    (now : Nat → Int) (pick : Nat → Nat) (a fuel : Nat)
    (lastE : Option (Nat × String)) (st : KMState) (k : String) (st' : KMState)
    (hget : get_next_key st (now a) (pick a) = .ok (k, st')) :
    (∀ s body, upstream a k = .httpError s body → s ≠ RATE_LIMIT_ERROR_CODE →
      handleNonStream upstream now pick a (fuel + 1) lastE st
        = (.httpErr s body, [k], st') ∧
      streamWithRetries upstream now pick a (fuel + 1) st = ([], [k], st')) ∧
    (∀ msg, upstream a k = .transportError msg →
      handleNonStream upstream now pick a (fuel + 1) lastE st
        = (.httpErr 500 ("Request to OpenRouter API failed: " ++ msg), [k], st') ∧
      streamWithRetries upstream now pick a (fuel + 1) st = ([], [k], st')) ∧
    (∀ chunks msg, upstream a k = .okThenErr chunks msg →
      handleNonStream upstream now pick a (fuel + 1) lastE st
        = (.httpErr 500 ("Request to OpenRouter API failed: " ++ msg), [k], st') ∧
      streamWithRetries upstream now pick a (fuel + 1) st = (chunks, [k], st')) := by
  refine ⟨?_, ?_, ?_⟩
  · intro s body hup hs
    constructor
    · simp only [handleNonStream, hget, hup]
      rw [if_neg hs]
    · simp only [streamWithRetries, hget, hup]
      rw [if_neg hs]
  · intro msg hup
    constructor
    · simp only [handleNonStream, hget, hup]
    · simp only [streamWithRetries, hget, hup]
  · intro chunks msg hup
    constructor
    · simp only [handleNonStream, hget, hup]
    · simp only [streamWithRetries, hget, hup]

/-- Witness for C2 (amended) with an upstream that answers 404 `nf`:
the non-streaming loop propagates exactly status 404 and body `nf`
after acquiring one key, and the streaming loop ends silently. -/
theorem C2_witness :
    handleNonStream (fun _ _ => .httpError 404 "nf") (fun _ => 0) (fun _ => 0)
        0 10 none ⟨["A"], 14400, 0, [], "round-robin", false, none⟩
      = (.httpErr 404 "nf", ["A"],
         ⟨["A"], 14400, 0, [], "round-robin", false, some "A"⟩) ∧
    streamWithRetries (fun _ _ => .httpError 404 "nf") (fun _ => 0) (fun _ => 0)
        0 10 ⟨["A"], 14400, 0, [], "round-robin", false, none⟩
      = ([], ["A"], ⟨["A"], 14400, 0, [], "round-robin", false, some "A"⟩) :=
  (C2_no_retry_non429 (fun _ _ => .httpError 404 "nf") (fun _ => 0) (fun _ => 0)
    0 9 none ⟨["A"], 14400, 0, [], "round-robin", false, none⟩ "A"
    ⟨["A"], 14400, 0, [], "round-robin", false, some "A"⟩ rfl).1
    404 "nf" rfl (by decide)

/-- C4 counterexample: in the retry loop a 429 answer penalizes the key
WITHOUT the reset hint carried by the 429 body.  Keys `[A, B]`, default
cooldown 100 s, attempt time `now = 1000000`; the first attempt gets a
429 whose body carries the reset timestamp `1005000` ( = now + 5 s), the
second succeeds.  The run ends with `A`'s deadline at the default
`1100000` ( = now + 100 s), not at the hinted `1005000` — although
`disable_key` with that hint would have set exactly `1005000`. -/
theorem C4_counterexample :
    runHandleNonStream
        (fun a _ => if a = 0
          then .httpError 429 "429 body with X-RateLimit-Reset 1005000"
          else .ok ["done"])
        (fun _ => 1000000) (fun _ => 0)
        ⟨["A", "B"], 100, 0, [], "round-robin", false, none⟩
      = (.success "done", ["A", "B"],
         ⟨["A", "B"], 100, 0, [("A", 1100000)], "round-robin", false, some "B"⟩) ∧
    getAssoc [("A", (1100000 : Int))] "A" = some 1100000 ∧
    ((1100000 : Int) ≠ 1005000) ∧
    getAssoc (disable_key
        ⟨["A", "B"], 100, 1, [], "round-robin", false, some "A"⟩
        1000000 "A" (some 1005000)).disabled_until "A" = some 1005000 := by
  exact ⟨rfl, rfl, by decide, rfl⟩

/-- C4 (amended): when an upstream attempt returns HTTP 429 the engine
penalizes the key used for that attempt by calling `disable_key` with NO
reset hint — regardless of the 429 body, the deadline becomes
`now + cooldown_default` — and then continues with the next attempt.
(Reset-hint extraction exists only in the monolith path's
`check_httpx_err`, outside any retry loop.) -/
theorem C4_penalize_default (upstream : Nat → String → UpstreamResult)
    (now : Nat → Int) (pick : Nat → Nat) (a fuel : Nat)
    (lastE : Option (Nat × String)) (st : KMState) (k : String) (st' : KMState)
    (body : String)
    (hget : get_next_key st (now a) (pick a) = .ok (k, st'))
    (hup : upstream a k = .httpError 429 body) :
    (handleNonStream upstream now pick a (fuel + 1) lastE st
      = (let r := handleNonStream upstream now pick (a + 1) fuel
                    (some (429, body)) (disable_key st' (now a) k none);
         (r.1, k :: r.2.1, r.2.2))) ∧
    (streamWithRetries upstream now pick a (fuel + 1) st
      = (let r := streamWithRetries upstream now pick (a + 1) fuel
                    (disable_key st' (now a) k none);
         (r.1, k :: r.2.1, r.2.2))) ∧
    getAssoc (disable_key st' (now a) k none).disabled_until k
      = some (now a + st'.cooldown_seconds * 1000) := by
  have h429 : 429 = RATE_LIMIT_ERROR_CODE := rfl
  refine ⟨?_, ?_, ?_⟩
  · simp only [handleNonStream, hget, hup]
    rw [if_pos h429]
  · simp only [streamWithRetries, hget, hup]
    rw [if_pos h429]
  · have : (disable_key st' (now a) k none).disabled_until
        = setAssoc st'.disabled_until k (now a + st'.cooldown_seconds * 1000) := by
      unfold disable_key
      simp
    rw [this, getAssoc_setAssoc_self]

/-- Witness for C4 (amended): concrete two-key run; the 429 branch
recurses on the state where the key got the default cooldown. -/
theorem C4_witness :
    handleNonStream
        (fun a _ => if a = 0
          then .httpError 429 "429 body with X-RateLimit-Reset 1005000"
          else .ok ["done"])
        (fun _ => 1000000) (fun _ => 0) 0 10 none
        ⟨["A", "B"], 100, 0, [], "round-robin", false, none⟩
      = (let r := handleNonStream
            (fun a _ => if a = 0
              then .httpError 429 "429 body with X-RateLimit-Reset 1005000"
              else .ok ["done"])
            (fun _ => 1000000) (fun _ => 0) 1 9
            (some (429, "429 body with X-RateLimit-Reset 1005000"))
            (disable_key ⟨["A", "B"], 100, 1, [], "round-robin", false, some "A"⟩
              1000000 "A" none);
         (r.1, "A" :: r.2.1, r.2.2)) ∧
    getAssoc (disable_key
        ⟨["A", "B"], 100, 1, [], "round-robin", false, some "A"⟩
        1000000 "A" none).disabled_until "A" = some (1000000 + 100 * 1000) := by
  have h := C4_penalize_default
    (fun a _ => if a = 0
      then .httpError 429 "429 body with X-RateLimit-Reset 1005000"
      else .ok ["done"])
    (fun _ => 1000000) (fun _ => 0) 0 9 none
    ⟨["A", "B"], 100, 0, [], "round-robin", false, none⟩ "A"
    ⟨["A", "B"], 100, 1, [], "round-robin", false, some "A"⟩
    "429 body with X-RateLimit-Reset 1005000" rfl rfl
  exact ⟨h.1, h.2.2⟩

/-- C3 counterexample: with free-only mode on and cached free set
`{"m:free"}`, a chat request for `m:paid` is NOT rejected with 403
before key acquisition: the handler consults neither the flag nor the
model-filter cache, acquires pool key `A` and forwards the request
(here succeeding), even though `is_model_allowed` answers `false` for
that model. -/
theorem C3_counterexample :
    engineHandleNonStream true ["m:free"] ⟨"m:paid", false⟩
        (fun _ _ => .ok ["hi"]) (fun _ => 0) (fun _ => 0)
        ⟨["A"], 14400, 0, [], "round-robin", false, none⟩
      = (.success "hi", ["A"],
         ⟨["A"], 14400, 0, [], "round-robin", false, some "A"⟩) ∧
    (is_model_allowed ⟨["m:free"], 0, 3600000⟩ 0 (.ok []) "m:paid").1 = false := by
  exact ⟨rfl, rfl⟩

/-- C3 (amended): the chat-completions handler performs no free-only
model gating.  Its outcome is independent of the `free_only` flag and of
the model-filter cache's free set, and whenever the first key
acquisition succeeds a pool key is consumed — regardless of the request
model — so no request is rejected with 403 before a key is acquired. -/
theorem C3_no_model_gating :
    (∀ fo ids fo' ids' req upstream now pick st,
      engineHandleNonStream fo ids req upstream now pick st
        = engineHandleNonStream fo' ids' req upstream now pick st) ∧
    (∀ fo ids req upstream now pick st k st',
      get_next_key st (now 0) (pick 0) = .ok (k, st') →
      (engineHandleNonStream fo ids req upstream now pick st).2.1.head? = some k) := by
  constructor
  · intro fo ids fo' ids' req upstream now pick st
    rfl
  · intro fo ids req upstream now pick st k st' hget
    show (handleNonStream upstream now pick 0 (9 + 1) none st).2.1.head? = some k
    simp only [handleNonStream, hget]
    cases upstream 0 k with
    | ok chunks => rfl
    | httpError s body =>
      by_cases hs : s = RATE_LIMIT_ERROR_CODE
      · simp [hs]
      · simp [hs]
    | transportError msg => rfl
    | okThenErr chunks msg => rfl

/-- Witness for C3 (amended): the paid-model request of the
counterexample scenario consumes pool key `A` as its first acquisition. -/
theorem C3_witness :
    (engineHandleNonStream true ["m:free"] ⟨"m:paid", false⟩
        (fun _ _ => .ok ["hi"]) (fun _ => 0) (fun _ => 0)
        ⟨["A"], 14400, 0, [], "round-robin", false, none⟩).2.1.head? = some "A" :=
  C3_no_model_gating.2 true ["m:free"] ⟨"m:paid", false⟩ (fun _ _ => .ok ["hi"])
    (fun _ => 0) (fun _ => 0) ⟨["A"], 14400, 0, [], "round-robin", false, none⟩
    "A" ⟨["A"], 14400, 0, [], "round-robin", false, some "A"⟩ rfl

/-! ### Free-filter lemmas -/

theorem isFreeModelE_ok (m : Json) (b : Bool) (h : isFreeModelE m = .ok b) :
    b = claimFree m := by
  cases m with
  | obj fields =>
    simp only [isFreeModelE] at h
    cases hp : getAssoc fields "pricing" with
    | none =>
      rw [hp] at h
      simp only [Except.ok.injEq] at h
      subst h
      simp only [claimFree, hp]
      decide
    | some v =>
      rw [hp] at h
      cases v with
      | obj p =>
        simp only [Except.ok.injEq] at h
        subst h
        simp [claimFree, hp]
      | null => cases h
      | bool c => cases h
      | num n => cases h
      | str s => cases h
      | arr xs => cases h
  | null => cases h
  | bool c => cases h
  | num n => cases h
  | str s => cases h
  | arr xs => cases h

theorem filterFreeE_ok_filter :
    ∀ (ms fl : List Json), filterFreeE ms = .ok fl → fl = ms.filter claimFree := by
  intro ms
  induction ms with
  | nil =>
    intro fl h
    simp only [filterFreeE, Except.ok.injEq] at h
    subst h
    rfl
  | cons m rest ih =>
    intro fl h
    simp only [filterFreeE] at h
    cases hm : isFreeModelE m with
    | error e => rw [hm] at h; cases h
    | ok b =>
      rw [hm] at h
      cases hr : filterFreeE rest with
      | error e => rw [hr] at h; cases h
      | ok tail =>
        rw [hr] at h
        simp only [Except.ok.injEq] at h
        subst h
        have hb := isFreeModelE_ok m b hm
        subst hb
        rw [List.filter_cons, ih tail hr]

theorem filterFreeE_ok_mem :
    ∀ (ms fl : List Json), filterFreeE ms = .ok fl →
      ∀ m ∈ fl, isFreeModelE m = .ok true := by
  intro ms
  induction ms with
  | nil =>
    intro fl h m hm
    simp only [filterFreeE, Except.ok.injEq] at h
    subst h
    cases hm
  | cons x rest ih =>
    intro fl h m hm
    simp only [filterFreeE] at h
    cases hx : isFreeModelE x with
    | error e => rw [hx] at h; cases h
    | ok b =>
      rw [hx] at h
      cases hr : filterFreeE rest with
      | error e => rw [hr] at h; cases h
      | ok tail =>
        rw [hr] at h
        simp only [Except.ok.injEq] at h
        subst h
        cases b with
        | true =>
          rcases List.mem_cons.mp hm with hm1 | hm2
          · subst hm1; exact hx
          · exact ih tail hr m hm2
        | false => exact ih tail hr m hm

theorem filterFreeE_all_true :
    ∀ (l : List Json), (∀ m ∈ l, isFreeModelE m = .ok true) →
      filterFreeE l = .ok l := by
  intro l
  induction l with
  | nil => intro; rfl
  | cons m rest ih =>
    intro hall
    have hm := hall m (List.mem_cons_self m rest)
    have hrest := ih (fun x hx => hall x (List.mem_cons_of_mem m hx))
    simp [filterFreeE, hm, hrest]

/-- C8 counterexample: a body that parses as valid JSON but not as an
object (here the JSON array `[]`) is not returned unchanged as the claim
requires: `data.get("data")` raises `AttributeError` on a non-dict, so
`remove_paid_models` fails (surfacing as a 500) instead of passing the
body through.  The codec instance is the identity embedding
`loads = id`, `dumps = some` on already-parsed bodies. -/
theorem C8_counterexample :
    remove_paid_models (fun x => x) (fun j => some j) (some (Json.arr []))
      = .error () ∧
    (Except.error () ≠ (Except.ok (some (Json.arr [])) : Except Unit (Option Json))) := by
  refine ⟨rfl, ?_⟩
  intro h
  cases h

/-- C8 (amended): `remove_paid_models`, for any JSON codec: a body that
is not valid JSON is returned unchanged; a body parsing to a JSON value
that is not an object raises (`AttributeError`, surfaced as a 500); on
an object body whose `data` field is missing or not a list the body is
returned unchanged; on an object body with a list `data` field whose
filter evaluates without raising, exactly the entries whose `pricing`
object maps each of `prompt`, `completion`, `request`, `image`,
`web_search`, `internal_reasoning` to the string `"0"` are kept (a
missing pricing field counts as `"1"` and excludes the entry), and if
the kept list is non-empty it replaces `data` and the body is
re-serialized, otherwise the body is returned unchanged. -/
theorem C8_free_filter {β : Type} (loads : β → Option Json) (dumps : Json → β)
    (b : β) :
    (loads b = none → remove_paid_models loads dumps b = .ok b) ∧
    (∀ j, loads b = some j → isObj j = false →
      remove_paid_models loads dumps b = .error ()) ∧
    (∀ fields, loads b = some (.obj fields) → getAssoc fields "data" = none →
      remove_paid_models loads dumps b = .ok b) ∧
    (∀ fields v, loads b = some (.obj fields) → getAssoc fields "data" = some v →
      (∀ ms, v ≠ .arr ms) → remove_paid_models loads dumps b = .ok b) ∧
    (∀ fields models fl, loads b = some (.obj fields) →
      getAssoc fields "data" = some (.arr models) →
      filterFreeE models = .ok fl →
      fl = models.filter claimFree ∧
      (fl.isEmpty = true → remove_paid_models loads dumps b = .ok b) ∧
      (fl.isEmpty = false →
        remove_paid_models loads dumps b
          = .ok (dumps (.obj (setAssoc fields "data" (.arr fl)))))) := by
  refine ⟨?_, ?_, ?_, ?_, ?_⟩
  · intro hl
    simp only [remove_paid_models, hl]
  · intro j hl hobj
    cases j with
    | obj fields => simp [isObj] at hobj
    | null => simp only [remove_paid_models, hl]
    | bool c => simp only [remove_paid_models, hl]
    | num n => simp only [remove_paid_models, hl]
    | str s => simp only [remove_paid_models, hl]
    | arr xs => simp only [remove_paid_models, hl]
  · intro fields hl hd
    simp only [remove_paid_models, hl, hd]
  · intro fields v hl hd hv
    cases v with
    | arr ms => exact absurd rfl (hv ms)
    | null => simp only [remove_paid_models, hl, hd]
    | bool c => simp only [remove_paid_models, hl, hd]
    | num n => simp only [remove_paid_models, hl, hd]
    | str s => simp only [remove_paid_models, hl, hd]
    | obj fs => simp only [remove_paid_models, hl, hd]
  · intro fields models fl hl hd hf
    refine ⟨filterFreeE_ok_filter models fl hf, ?_, ?_⟩
    · intro hemp
      simp only [remove_paid_models, hl, hd, hf, hemp, if_pos]
    · intro hemp
      simp only [remove_paid_models, hl, hd, hf, hemp]
      rw [if_neg]
      simp [hemp]

/-- Witness for C8 (amended) on a models body with one free and one paid
entry: the filter keeps exactly the free entry and the `data` field is
replaced. -/
theorem C8_witness :
    ([Json.obj [("id", Json.str "f"),
        ("pricing", Json.obj [("prompt", Json.str "0"), ("completion", Json.str "0"),
          ("request", Json.str "0"), ("image", Json.str "0"),
          ("web_search", Json.str "0"), ("internal_reasoning", Json.str "0")])],
      Json.obj [("id", Json.str "p"),
        ("pricing", Json.obj [("prompt", Json.str "1")])]].filter claimFree
      = [Json.obj [("id", Json.str "f"),
        ("pricing", Json.obj [("prompt", Json.str "0"), ("completion", Json.str "0"),
          ("request", Json.str "0"), ("image", Json.str "0"),
          ("web_search", Json.str "0"), ("internal_reasoning", Json.str "0")])]]) ∧
    remove_paid_models (fun x => x) (fun j => some j)
        (some (Json.obj [("data", Json.arr
          [Json.obj [("id", Json.str "f"),
            ("pricing", Json.obj [("prompt", Json.str "0"), ("completion", Json.str "0"),
              ("request", Json.str "0"), ("image", Json.str "0"),
              ("web_search", Json.str "0"), ("internal_reasoning", Json.str "0")])],
           Json.obj [("id", Json.str "p"),
            ("pricing", Json.obj [("prompt", Json.str "1")])]])]))
      = .ok (some (Json.obj [("data", Json.arr
          [Json.obj [("id", Json.str "f"),
            ("pricing", Json.obj [("prompt", Json.str "0"), ("completion", Json.str "0"),
              ("request", Json.str "0"), ("image", Json.str "0"),
              ("web_search", Json.str "0"), ("internal_reasoning", Json.str "0")])]])])) := by
  have h := (C8_free_filter (fun x => x) (fun j => some j)
      (some (Json.obj [("data", Json.arr
        [Json.obj [("id", Json.str "f"),
          ("pricing", Json.obj [("prompt", Json.str "0"), ("completion", Json.str "0"),
            ("request", Json.str "0"), ("image", Json.str "0"),
            ("web_search", Json.str "0"), ("internal_reasoning", Json.str "0")])],
         Json.obj [("id", Json.str "p"),
          ("pricing", Json.obj [("prompt", Json.str "1")])]])]))).2.2.2.2
    [("data", Json.arr
        [Json.obj [("id", Json.str "f"),
          ("pricing", Json.obj [("prompt", Json.str "0"), ("completion", Json.str "0"),
            ("request", Json.str "0"), ("image", Json.str "0"),
            ("web_search", Json.str "0"), ("internal_reasoning", Json.str "0")])],
         Json.obj [("id", Json.str "p"),
          ("pricing", Json.obj [("prompt", Json.str "1")])]])]
    [Json.obj [("id", Json.str "f"),
        ("pricing", Json.obj [("prompt", Json.str "0"), ("completion", Json.str "0"),
          ("request", Json.str "0"), ("image", Json.str "0"),
          ("web_search", Json.str "0"), ("internal_reasoning", Json.str "0")])],
     Json.obj [("id", Json.str "p"),
        ("pricing", Json.obj [("prompt", Json.str "1")])]]
    [Json.obj [("id", Json.str "f"),
        ("pricing", Json.obj [("prompt", Json.str "0"), ("completion", Json.str "0"),
          ("request", Json.str "0"), ("image", Json.str "0"),
          ("web_search", Json.str "0"), ("internal_reasoning", Json.str "0")])]]
    rfl rfl rfl
  exact ⟨h.1.symm, h.2.2 rfl⟩

/-- C9: the free-only models post-filter is idempotent.  For every JSON
codec whose `loads` is a left inverse of `dumps` (true of Python's
`json.loads` / `json.dumps`) and every body `b`, running
`remove_paid_models` on the result of a first run (in the `Except`
monad, so a raising run stays raising) equals the single run; in
particular an already-filtered body passes through byte-for-byte. -/
theorem C9_filter_idempotent {β : Type} (loads : β → Option Json)
    (dumps : Json → β) (hrt : ∀ j, loads (dumps j) = some j) (b : β) :
    (remove_paid_models loads dumps b).bind (remove_paid_models loads dumps)
      = remove_paid_models loads dumps b := by
  cases hl : loads b with
  | none => simp [remove_paid_models, Except.bind, hl]
  | some j =>
    cases j with
    | null => simp [remove_paid_models, Except.bind, hl]
    | bool c => simp [remove_paid_models, Except.bind, hl]
    | num n => simp [remove_paid_models, Except.bind, hl]
    | str s => simp [remove_paid_models, Except.bind, hl]
    | arr xs => simp [remove_paid_models, Except.bind, hl]
    | obj fields =>
      cases hd : getAssoc fields "data" with
      | none => simp [remove_paid_models, Except.bind, hl, hd]
      | some v =>
        cases v with
        | null => simp [remove_paid_models, Except.bind, hl, hd]
        | bool c => simp [remove_paid_models, Except.bind, hl, hd]
        | num n => simp [remove_paid_models, Except.bind, hl, hd]
        | str s => simp [remove_paid_models, Except.bind, hl, hd]
        | obj fs => simp [remove_paid_models, Except.bind, hl, hd]
        | arr models =>
          cases hf : filterFreeE models with
          | error e =>
            simp [remove_paid_models, Except.bind, hl, hd, hf]
          | ok fl =>
            by_cases hemp : fl.isEmpty
            · simp [remove_paid_models, Except.bind, hl, hd, hf, hemp]
            · have hstep : remove_paid_models loads dumps b
                  = .ok (dumps (.obj (setAssoc fields "data" (.arr fl)))) := by
                simp only [remove_paid_models, hl, hd, hf]
                rw [if_neg hemp]
              rw [hstep]
              show remove_paid_models loads dumps
                  (dumps (.obj (setAssoc fields "data" (.arr fl)))) = _
              have hl2 : loads (dumps (.obj (setAssoc fields "data" (.arr fl))))
                  = some (.obj (setAssoc fields "data" (.arr fl))) := hrt _
              have hd2 : getAssoc (setAssoc fields "data" (Json.arr fl)) "data"
                  = some (.arr fl) := getAssoc_setAssoc_self _ _ _
              have hf2 : filterFreeE fl = .ok fl :=
                filterFreeE_all_true fl (filterFreeE_ok_mem models fl hf)
              simp only [remove_paid_models, hl2, hd2, hf2]
              rw [if_neg hemp, setAssoc_setAssoc_self]

/-- Witness for C9: the identity codec (for which the left-inverse
hypothesis holds by `rfl`) on the two-entry models body. -/
theorem C9_witness :
    (remove_paid_models (fun x => x) (fun j => some j)
        (some (Json.obj [("data", Json.arr
          [Json.obj [("pricing", Json.obj [("prompt", Json.str "0"),
              ("completion", Json.str "0"), ("request", Json.str "0"),
              ("image", Json.str "0"), ("web_search", Json.str "0"),
              ("internal_reasoning", Json.str "0")])],
           Json.obj [("pricing", Json.obj [("prompt", Json.str "1")])]])]))).bind
      (remove_paid_models (fun x => x) (fun j => some j))
      = remove_paid_models (fun x => x) (fun j => some j)
        (some (Json.obj [("data", Json.arr
          [Json.obj [("pricing", Json.obj [("prompt", Json.str "0"),
              ("completion", Json.str "0"), ("request", Json.str "0"),
              ("image", Json.str "0"), ("web_search", Json.str "0"),
              ("internal_reasoning", Json.str "0")])],
           Json.obj [("pricing", Json.obj [("prompt", Json.str "1")])]])])) :=
  C9_filter_idempotent (fun x => x) (fun j => some j) (fun j => rfl) _

/-! ### Pool-equivalence simulation lemmas -/

theorem availableKeys_eq_of_poolEquiv (s1 s2 : KMState) (h : PoolEquiv s1 s2)
    (now : Int) : availableKeys s1 now = availableKeys s2 now := by
  obtain ⟨hk, -, -, -, -, -, hdu⟩ := h
  unfold availableKeys
  rw [← hk]
  apply List.filter_congr
  intro p hp
  unfold isAvailable
  rw [hdu p hp]

theorem expiredKeys_eq_of_poolEquiv (s1 s2 : KMState) (h : PoolEquiv s1 s2)
    (now : Int) : expiredKeys s1 now = expiredKeys s2 now := by
  obtain ⟨hk, -, -, -, -, -, hdu⟩ := h
  unfold expiredKeys
  rw [← hk]
  apply List.filter_congr
  intro p hp
  rw [hdu p hp]

theorem selectKey_eq_of_poolEquiv (s1 s2 : KMState) (h : PoolEquiv s1 s2)
    (avail : List String) (pick : Nat) :
    selectKey s1 avail pick = selectKey s2 avail pick := by
  obtain ⟨hk, -, hci, hst, hul, hlk, -⟩ := h
  unfold selectKey
  rw [hk, hci, hst, hul, hlk]

theorem get_next_key_eq (st : KMState) (now : Int) (pick : Nat) :
    get_next_key st now pick =
      (if (availableKeys st now).isEmpty then
        match minVal (sweep st.disabled_until (expiredKeys st now)) with
        | none => .error .emptyMin
        | some soonest =>
          .error (.allKeysCooling (soonest - now) 503 allCoolingDetail)
      else
        match selectKey st (availableKeys st now) pick with
        | .ok (k, idx') =>
          .ok (k, { st with
            disabled_until := sweep st.disabled_until (expiredKeys st now),
            current_index := idx', last_key := some k })
        | .error e => .error e) := rfl

theorem get_next_key_poolEquiv (s1 s2 : KMState) (h : PoolEquiv s1 s2)
    (now : Int) (pick : Nat) :
    (∀ k t1, get_next_key s1 now pick = .ok (k, t1) →
      ∃ t2, get_next_key s2 now pick = .ok (k, t2) ∧ PoolEquiv t1 t2) ∧
    (∀ e1, get_next_key s1 now pick = .error e1 →
      ∃ e2, get_next_key s2 now pick = .error e2) := by
  have hav := availableKeys_eq_of_poolEquiv s1 s2 h now
  have hex := expiredKeys_eq_of_poolEquiv s1 s2 h now
  have hsel := selectKey_eq_of_poolEquiv s1 s2 h (availableKeys s1 now) pick
  obtain ⟨hk, hcd, hci, hst, hul, hlk, hdu⟩ := h
  constructor
  · intro k t1 h1
    rw [get_next_key_eq] at h1 ⊢
    rw [← hav, ← hsel]
    by_cases he : (availableKeys s1 now).isEmpty
    · rw [if_pos he] at h1
      cases hm : minVal (sweep s1.disabled_until (expiredKeys s1 now)) with
      | none => rw [hm] at h1; cases h1
      | some so => rw [hm] at h1; cases h1
    · rw [if_neg he] at h1 ⊢
      cases hs : selectKey s1 (availableKeys s1 now) pick with
      | error e => rw [hs] at h1; cases h1
      | ok p =>
        obtain ⟨k0, idx'⟩ := p
        rw [hs] at h1
        cases h1
        refine ⟨_, rfl, hk, hcd, rfl, hst, hul, rfl, ?_⟩
        intro q hq
        rw [getAssoc_sweep, getAssoc_sweep, ← hex]
        by_cases hc : (expiredKeys s1 now).contains q
        · rw [if_pos hc, if_pos hc]
        · rw [if_neg hc, if_neg hc]
          exact hdu q hq
  · intro e1 h1
    rw [get_next_key_eq] at h1 ⊢
    rw [← hav, ← hsel]
    by_cases he : (availableKeys s1 now).isEmpty
    · rw [if_pos he] at h1 ⊢
      cases hm : minVal (sweep s2.disabled_until (expiredKeys s2 now)) with
      | none => exact ⟨_, rfl⟩
      | some so => exact ⟨_, rfl⟩
    · rw [if_neg he] at h1 ⊢
      cases hs : selectKey s1 (availableKeys s1 now) pick with
      | ok p =>
        obtain ⟨k0, idx'⟩ := p
        rw [hs] at h1
        cases h1
      | error e =>
        exact ⟨e, rfl⟩

theorem acquireTrace_poolEquiv (nows : Nat → Int) (picks : Nat → Nat) :
    ∀ n i s1 s2, PoolEquiv s1 s2 →
      acquireTrace nows picks i n s1 = acquireTrace nows picks i n s2 := by
  intro n
  induction n with
  | zero => intro i s1 s2 h; rfl
  | succ m ih =>
    intro i s1 s2 h
    cases r1 : get_next_key s1 (nows i) (picks i) with
    | ok p =>
      obtain ⟨k, t1⟩ := p
      obtain ⟨t2, r2, hpe⟩ := (get_next_key_poolEquiv s1 s2 h (nows i) (picks i)).1 k t1 r1
      show (match get_next_key s1 (nows i) (picks i) with
            | .ok (k, st') => some k :: acquireTrace nows picks (i + 1) m st'
            | .error _ => none :: acquireTrace nows picks (i + 1) m s1)
          = (match get_next_key s2 (nows i) (picks i) with
            | .ok (k, st') => some k :: acquireTrace nows picks (i + 1) m st'
            | .error _ => none :: acquireTrace nows picks (i + 1) m s2)
      rw [r1, r2]
      simp only [List.cons.injEq, true_and]
      exact ih (i + 1) t1 t2 hpe
    | error e1 =>
      obtain ⟨e2, r2⟩ := (get_next_key_poolEquiv s1 s2 h (nows i) (picks i)).2 e1 r1
      show (match get_next_key s1 (nows i) (picks i) with
            | .ok (k, st') => some k :: acquireTrace nows picks (i + 1) m st'
            | .error _ => none :: acquireTrace nows picks (i + 1) m s1)
          = (match get_next_key s2 (nows i) (picks i) with
            | .ok (k, st') => some k :: acquireTrace nows picks (i + 1) m st'
            | .error _ => none :: acquireTrace nows picks (i + 1) m s2)
      rw [r1, r2]
      simp only [List.cons.injEq, true_and]
      exact ih (i + 1) s1 s2 h

/-- C10: `disable_key(k, hint)` for a key `k` outside the configured
pool (reachable from the KMS `/disable_key` endpoint with an arbitrary
string) never changes which keys subsequent `get_next_key()` calls can
return: the pool keys' cooldown entries are untouched, the
active/cooling counts over the pool are unchanged at every instant, every
successfully acquired key is a pool member (so `k` is never handed out),
the trace of any number of subsequent acquisitions is unchanged, and the
only state change is the new `disabled_until` entry for `k`. -/
theorem C10_disable_foreign_key (st : KMState) (now : Int) (key : String)
    (hint : Option Int) (hk : key ∉ st.keys) :
    (∀ p ∈ st.keys, getAssoc (disable_key st now key hint).disabled_until p
        = getAssoc st.disabled_until p) ∧
    (∀ q, q ≠ key → getAssoc (disable_key st now key hint).disabled_until q
        = getAssoc st.disabled_until q) ∧
    (∃ t, getAssoc (disable_key st now key hint).disabled_until key = some t) ∧
    (∀ now', activeCount (disable_key st now key hint) now' = activeCount st now' ∧
      cooldownCount (disable_key st now key hint) now' = cooldownCount st now') ∧
    (∀ now' pick' k' s',
      get_next_key (disable_key st now key hint) now' pick' = .ok (k', s') →
      k' ∈ st.keys) ∧
    (∀ nows picks i n,
      acquireTrace nows picks i n (disable_key st now key hint)
        = acquireTrace nows picks i n st) := by
  have hfr : ∀ q, q ≠ key → getAssoc (disable_key st now key hint).disabled_until q
      = getAssoc st.disabled_until q := by
    intro q hq
    show getAssoc (setAssoc st.disabled_until key _) q = _
    exact getAssoc_setAssoc_ne _ _ _ _ hq
  have hpool : ∀ p ∈ st.keys, getAssoc (disable_key st now key hint).disabled_until p
      = getAssoc st.disabled_until p := by
    intro p hp
    apply hfr
    intro hpq
    exact hk (hpq ▸ hp)
  have hpe : PoolEquiv (disable_key st now key hint) st :=
    ⟨rfl, rfl, rfl, rfl, rfl, rfl, hpool⟩
  refine ⟨hpool, hfr, ?_, ?_, ?_, ?_⟩
  · exact ⟨_, getAssoc_setAssoc_self st.disabled_until key _⟩
  · intro now'
    constructor
    · unfold activeCount
      congr 1
      apply List.filter_congr
      intro p hp
      unfold isAvailable
      rw [hpool p hp]
    · unfold cooldownCount
      congr 1
      apply List.filter_congr
      intro p hp
      unfold isAvailable
      rw [hpool p hp]
  · intro now' pick' k' s' hok
    obtain ⟨hc, -, -, -, -, -, -, -⟩ :=
      get_next_key_ok_inv (disable_key st now key hint) now' pick' k' s' hok
    exact ((contains_availableKeys _ now' k').mp hc).1
  · intro nows picks i n
    exact acquireTrace_poolEquiv nows picks n i _ _ hpe

/-- Witness for C10: disabling the foreign key `X` on a one-key pool
leaves the pool key's entry, the acquisition trace and the counts
unchanged, while `X` itself gets an entry. -/
theorem C10_witness :
    getAssoc (disable_key ⟨["A"], 5, 0, [], "first", false, none⟩
        100 "X" none).disabled_until "A" = getAssoc [] "A" ∧
    acquireTrace (fun _ => 200) (fun _ => 0) 0 2
        (disable_key ⟨["A"], 5, 0, [], "first", false, none⟩ 100 "X" none)
      = acquireTrace (fun _ => 200) (fun _ => 0) 0 2
        ⟨["A"], 5, 0, [], "first", false, none⟩ ∧
    activeCount (disable_key ⟨["A"], 5, 0, [], "first", false, none⟩
        100 "X" none) 200
      = activeCount ⟨["A"], 5, 0, [], "first", false, none⟩ 200 := by
  have h := C10_disable_foreign_key ⟨["A"], 5, 0, [], "first", false, none⟩
    100 "X" none (by decide)
  exact ⟨h.1 "A" (by decide), h.2.2.2.2.2 (fun _ => 200) (fun _ => 0) 0 2,
    (h.2.2.2.1 200).1⟩

end ORProxy
